import Mathlib

/-!
Verification of the helm-controller HelmRelease reconciler against its
specification.  The definitions below are a shallow embedding of
`internal/controller/helmrelease_controller.go` (the `Reconcile` /
`reconcileRelease` / `checkDependencies` / `requestsForHelmChartChange`
functions).  Collaborator calls (chart fetch, values composition, chart
loading, REST client construction, the uninstall and atomic-release
sub-reconcilers, and the deferred status patch) are modelled as outcomes
supplied by an `Env` record, exactly at the points where the Go code
invokes them; the control flow between those points is translated
statement by statement.
-/

namespace HelmController

/-- `types.NamespacedName`. -/
structure NamespacedName where
  nspace : String
  name : String
deriving Repr, DecidableEq

/-- A status condition (`metav1.Condition`): type, boolean status, reason,
message.  Conditions are keyed by their type. -/
structure Condition where
  ctype : String
  status : Bool
  reason : String
  message : String
deriving Repr, DecidableEq

/-- `conditions.Set`-style update: conditions form a type-keyed set, so
setting a condition replaces any existing condition of the same type. -/
def setCondition (conds : List Condition) (c : Condition) : List Condition :=
  c :: conds.filter (fun x => decide (x.ctype ≠ c.ctype))

/-- `conditions.Delete`: remove the condition with the given type. -/
def delCondition (conds : List Condition) (t : String) : List Condition :=
  conds.filter (fun x => decide (x.ctype ≠ t))

/-- `conditions.IsTrue`: a condition of type `t` is present with status true. -/
def isTrueCond (conds : List Condition) (t : String) : Bool :=
  conds.any (fun x => decide (x.ctype = t) && x.status)

/-- A condition of type `t` is present with status false. -/
def isFalseCond (conds : List Condition) (t : String) : Bool :=
  conds.any (fun x => decide (x.ctype = t) && !x.status)

/-- `conditions.Has`: a condition of type `t` is present. -/
def hasCondition (conds : List Condition) (t : String) : Bool :=
  conds.any (fun x => decide (x.ctype = t))

def readyCondition : String := "Ready"
def stalledCondition : String := "Stalled"
def reconcilingCondition : String := "Reconciling"
def progressingReason : String := "Progressing"
def dependencyNotReadyReason : String := "DependencyNotReady"
def accessDeniedReason : String := "AccessDenied"
def artifactFailedReason : String := "ArtifactFailed"
def helmReleaseFinalizer : String := "finalizers.fluxcd.io"

/-- A `v2.Snapshot` history entry: the deployed release this record
describes (name, namespace, chart name, chart version, values digest). -/
structure Snapshot where
  name : String
  nspace : String
  chartName : String
  version : String
  configDigest : String
deriving Repr, DecidableEq

/-- A `meta.NamespacedObjectReference` in `spec.dependsOn`; the namespace
may be empty, in which case it defaults to the release's own namespace. -/
structure DependencyRef where
  nspace : String
  name : String
deriving Repr, DecidableEq

/-- `v2.HelmReleaseStatus`, restricted to the fields the reconciler under
verification reads or writes. `history` is ordered newest first, so the
current deployment (`history.Latest()`) is its head. -/
structure HelmReleaseStatus where
  observedGeneration : Int
  history : List Snapshot
  storageNamespace : String
  installFailures : Nat
  upgradeFailures : Nat
  failures : Nat
  lastAttemptedGeneration : Int
  lastAttemptedRevision : String
  lastAttemptedConfigDigest : String
  lastAttemptedValuesChecksum : String
  conditions : List Condition
deriving Repr, DecidableEq

/-- The fields of `v2.HelmReleaseSpec` read by the reconciler paths under
verification. -/
structure HelmReleaseSpec where
  suspend : Bool
  dependsOn : List DependencyRef
deriving Repr, DecidableEq

/-- A `v2.HelmRelease` object.  `releaseNamespace`, `releaseName` and
`storageNamespaceDesired` model the API getters `GetReleaseNamespace`,
`GetReleaseName` and `GetStorageNamespace` (pure functions of the spec,
whose defaulting rules are outside the sources under verification), and
`requeueAfterInterval` models `GetRequeueAfter`. -/
structure HelmRelease where
  nspace : String
  name : String
  generation : Int
  deletionTimestamp : Option Nat
  finalizers : List String
  spec : HelmReleaseSpec
  status : HelmReleaseStatus
  releaseNamespace : String
  releaseName : String
  storageNamespaceDesired : String
  requeueAfterInterval : Nat
deriving Repr, DecidableEq

/-- Set a condition on the object (`conditions.MarkTrue` / `MarkFalse` /
`MarkStalled` / `MarkReconciling`). -/
def markCondition (obj : HelmRelease) (t : String) (st : Bool) (why msg : String) :
    HelmRelease :=
  { obj with status :=
    { obj.status with conditions := setCondition obj.status.conditions ⟨t, st, why, msg⟩ } }

/-- Delete a condition from the object (`conditions.Delete`). -/
def unmarkCondition (obj : HelmRelease) (t : String) : HelmRelease :=
  { obj with status :=
    { obj.status with conditions := delCondition obj.status.conditions t } }

/-- `conditions.MarkReconciling(obj, meta.ProgressingReason, "")`. -/
def markReconcilingObj (obj : HelmRelease) : HelmRelease :=
  markCondition obj reconcilingCondition true progressingReason ""

/-! ## Dependency gate (`checkDependencies`) -/

/-- The observed state of a dependency `v2.HelmRelease`, as read by
`checkDependencies`: its generation, the generation its status was
observed at, and its conditions. -/
structure DepState where
  generation : Int
  observedGeneration : Int
  conditions : List Condition
deriving Repr, DecidableEq

/-- The error produced by `checkDependencies`, naming the dependency. -/
inductive DepError where
  | unableToGet (ref : NamespacedName)
  | notReady (ref : NamespacedName)
deriving Repr, DecidableEq

def DepError.refOf : DepError → NamespacedName
  | DepError.unableToGet ref => ref
  | DepError.notReady ref => ref

def refText (ref : NamespacedName) : String := ref.nspace ++ "/" ++ ref.name

/-- The message of the dependency error (`err.Error()`). -/
def depErrText : DepError → String
  | DepError.unableToGet ref => "unable to get " ++ refText ref ++ " dependency"
  | DepError.notReady ref => "dependency " ++ refText ref ++ " is not ready"

/-- Resolve a dependency reference: an unset namespace defaults to the
release's own namespace (`if ref.Namespace == "" { ref.Namespace = obj.GetNamespace() }`). -/
def resolveDepRef (objNs : String) (d : DependencyRef) : NamespacedName :=
  { nspace := if d.nspace = "" then objNs else d.nspace, name := d.name }

/-- The loop body of `checkDependencies`: iterate over `spec.dependsOn`,
fetch each dependency, and fail on the first one that cannot be fetched or
whose status is stale (`Generation != Status.ObservedGeneration`) or whose
Ready condition is not true. -/
def checkDependenciesList (lookup : NamespacedName → Option DepState) (objNs : String) :
    List DependencyRef → Option DepError
  | [] => none
  | d :: rest =>
    let ref := resolveDepRef objNs d
    match lookup ref with
    | none => some (DepError.unableToGet ref)
    | some dHr =>
      if dHr.generation != dHr.observedGeneration || !isTrueCond dHr.conditions readyCondition then
        some (DepError.notReady ref)
      else
        checkDependenciesList lookup objNs rest

/-- `checkDependencies` from the controller: returns `none` when every
dependency is ready, or the first failure. -/
def checkDependencies (lookup : NamespacedName → Option DepState) (obj : HelmRelease) :
    Option DepError :=
  checkDependenciesList lookup obj.nspace obj.spec.dependsOn

/-- The specification-side predicate for a single dependency: it can be
fetched, has been observed at its latest generation, and its Ready
condition is true.  Used to compare `checkDependencies` against the
spec's wording. -/
def depGoodB (lookup : NamespacedName → Option DepState) (ref : NamespacedName) : Bool :=
  match lookup ref with
  | none => false
  | some s => decide (s.generation = s.observedGeneration) && isTrueCond s.conditions readyCondition

/-! ## Chart objects, errors, results, actions -/

/-- A `sourcev1.Artifact`. -/
structure Artifact where
  url : String
  digest : String
  revision : String
deriving Repr, DecidableEq

/-- A `sourcev1.HelmChart`, restricted to the fields the reconciler reads. -/
structure HelmChartObj where
  nspace : String
  name : String
  generation : Int
  observedGeneration : Int
  ready : Bool
  artifact : Option Artifact
  requeueAfterInterval : Nat
deriving Repr, DecidableEq

/-- Outcome of `getHelmChart`: a cross-boundary access-denied error
(`acl.IsAccessDenied`), another error, or the chart object. -/
inductive ChartFetch where
  | accessDenied (msg : String)
  | fetchErr (msg : String)
  | ok (hc : HelmChartObj)
deriving Repr, DecidableEq

/-- The chart returned by `loader.SecureLoadChartFromURL`: its name and its
`Metadata.Version`. -/
structure LoadedChart where
  name : String
  version : String
deriving Repr, DecidableEq

/-- Composed values (`chartutil.ChartValuesFromReferences` result), kept
opaque; only their canonical digest is inspected by the code under
verification. -/
abbrev Values := String

/-- A Go error value.  `errNoCurrent` is `intreconcile.ErrNoCurrent`;
`aggregate a b` is `apierrutil.NewAggregate([]error{a, b})`, which the
deferred patch handler builds from exactly two errors. -/
inductive GoError where
  | msg (s : String)
  | errNoCurrent
  | aggregate (first second : GoError)
deriving Repr, DecidableEq

/-- The members visible in an error: an aggregate exposes both wrapped
errors, any other error exposes itself. -/
def GoError.members : GoError → List GoError
  | GoError.aggregate a b => [a, b]
  | e => [e]

/-- A returned reconciliation error, with its terminality
(`reconcile.TerminalError`). -/
structure RetErr where
  err : GoError
  terminal : Bool
deriving Repr, DecidableEq

/-- `ctrl.Result`. -/
structure CtrlResult where
  requeue : Bool
  requeueAfter : Nat
deriving Repr, DecidableEq

def zeroResult : CtrlResult := { requeue := false, requeueAfter := 0 }

/-- The externally visible steps the reconciler takes, in order: chart
object fetch, values composition, chart load, an uninstall of the current
release (tagged with the storage namespace and current deployment it acts
on), and handing over to the atomic release engine. -/
inductive Action where
  | getChart
  | composeValues
  | loadChart
  | uninstall (storageNamespace : String) (current : Option Snapshot)
  | atomicRelease
deriving Repr, DecidableEq

/-! ## Spec-modelled predicates -/

/-- Modelled from the spec: `action.MustResetFailures` (its implementation
is not among the sources; only its call site is).  Spec 4.3:
`mustReset(revision, digest) = (revision ≠ lastAttemptedRevision) OR
(digest ≠ lastAttemptedConfigDigest)`. -/
def mustResetFailures (obj : HelmRelease) (revision digestValue : String) : Bool :=
  decide (revision ≠ obj.status.lastAttemptedRevision) ||
  decide (digestValue ≠ obj.status.lastAttemptedConfigDigest)

/-- Modelled from the spec: `action.ReleaseTargetChanged` (its
implementation is not among the sources; only its call site is).  Spec
4.2: with the current deployment set, the target has changed exactly when
the tuple (deployment namespace, release name as deployed, chart name)
differs from the recorded one; with no current deployment there is
nothing to tear down. -/
def releaseTargetChanged (obj : HelmRelease) (chartName : String) : Bool :=
  match obj.status.history.head? with
  | none => false
  | some cur =>
    decide (cur.nspace ≠ obj.releaseNamespace) ||
    decide (cur.name ≠ obj.releaseName) ||
    decide (cur.chartName ≠ chartName)

/-! ## The reconciler -/

/-- Collaborator outcomes for one reconciliation, one field per call site
in `Reconcile` / `reconcileRelease`. -/
structure Env where
  requeueDependency : Nat
  lookup : NamespacedName → Option DepState
  chartFetch : ChartFetch
  values : Except GoError Values
  loadChart : Except GoError LoadedChart
  getter : Except GoError Unit
  uninstallResult : Option GoError
  configFactory : Option GoError
  atomicRelease : HelmRelease → HelmRelease × Option GoError
  digestOf : Values → String
  deleteOutcome : HelmRelease → HelmRelease × CtrlResult × Option RetErr × List Action
  chartTemplate : Option GoError
  patchErr : Option GoError

/-- Outcome of the part of `reconcileRelease` up to (and including) the
recording of the last attempted revision/digest: either an early return,
or the prepared object handed on to the Helm action config factory and
the atomic release engine. -/
inductive PrepOutcome where
  | early (obj : HelmRelease) (res : CtrlResult) (err : Option RetErr) (trace : List Action)
  | proceed (obj : HelmRelease) (chart : LoadedChart) (vals : Values) (trace : List Action)
deriving Repr, DecidableEq

def PrepOutcome.outObj : PrepOutcome → HelmRelease
  | PrepOutcome.early obj _ _ _ => obj
  | PrepOutcome.proceed obj _ _ _ => obj

def PrepOutcome.outRes : PrepOutcome → CtrlResult
  | PrepOutcome.early _ res _ _ => res
  | PrepOutcome.proceed _ _ _ _ => zeroResult

def PrepOutcome.outErr : PrepOutcome → Option RetErr
  | PrepOutcome.early _ _ err _ => err
  | PrepOutcome.proceed _ _ _ _ => none

def PrepOutcome.outTrace : PrepOutcome → List Action
  | PrepOutcome.early _ _ _ tr => tr
  | PrepOutcome.proceed _ _ _ tr => tr

/-- The status updates performed after the target-change check and before
the config factory is built: set the storage namespace, reset the failure
counters when the chart version or values digest changed, and record the
last attempted generation/revision/digest. -/
def applyPrepUpdates (env : Env) (obj : HelmRelease) (lc : LoadedChart) (vals : Values) :
    HelmRelease :=
  let objS := { obj with status :=
    { obj.status with storageNamespace := obj.storageNamespaceDesired } }
  let objR :=
    if mustResetFailures objS lc.version (env.digestOf vals) then
      { objS with status :=
        { objS.status with installFailures := 0, upgradeFailures := 0, failures := 0 } }
    else objS
  { objR with status :=
    { objR.status with
        lastAttemptedGeneration := objR.generation,
        lastAttemptedRevision := lc.version,
        lastAttemptedConfigDigest := env.digestOf vals,
        lastAttemptedValuesChecksum := "" } }

/-- Clear the recorded deployment after a target-change uninstall:
`obj.Status.History = v2.ReleaseHistory{}; obj.Status.StorageNamespace = ""`. -/
def clearedTarget (obj : HelmRelease) : HelmRelease :=
  { obj with status := { obj.status with history := [], storageNamespace := "" } }

def stdTrace : List Action := [Action.getChart, Action.composeValues, Action.loadChart]

/-- `reconcileRelease` from the target-change check onwards.  On a changed
target: run the uninstall; a failure other than `ErrNoCurrent` is
returned as-is, otherwise the history and storage namespace are cleared
and an immediate requeue is requested.  Otherwise apply the prepare
updates and proceed. -/
def prepTarget (env : Env) (obj : HelmRelease) (lc : LoadedChart) (vals : Values) :
    PrepOutcome :=
  if releaseTargetChanged obj lc.name then
    let tr := stdTrace ++ [Action.uninstall obj.status.storageNamespace obj.status.history.head?]
    match env.uninstallResult with
    | some e =>
      if e = GoError.errNoCurrent then
        PrepOutcome.early (clearedTarget obj) { requeue := true, requeueAfter := 0 } none tr
      else
        PrepOutcome.early obj zeroResult (some { err := e, terminal := false }) tr
    | none =>
      PrepOutcome.early (clearedTarget obj) { requeue := true, requeueAfter := 0 } none tr
  else
    PrepOutcome.proceed (applyPrepUpdates env obj lc vals) lc vals stdTrace

/-- `reconcileRelease` after the dependency gate: fetch the chart object
(stalling terminally on access-denied), check chart readiness, compose
values, load the chart, build the REST client getter, then continue with
the target-change check. -/
def prepAfterDeps (env : Env) (obj : HelmRelease) : PrepOutcome :=
  match env.chartFetch with
  | ChartFetch.accessDenied m =>
    let obj := markCondition obj stalledCondition true accessDeniedReason m
    let obj := markCondition obj readyCondition false accessDeniedReason m
    let obj := unmarkCondition obj reconcilingCondition
    PrepOutcome.early obj zeroResult (some { err := GoError.msg m, terminal := true })
      [Action.getChart]
  | ChartFetch.fetchErr m =>
    let obj := markCondition obj readyCondition false artifactFailedReason
      ("could not get HelmChart object: " ++ m)
    PrepOutcome.early obj zeroResult (some { err := GoError.msg m, terminal := false })
      [Action.getChart]
  | ChartFetch.ok hc =>
    if hc.generation != hc.observedGeneration || !hc.ready || hc.artifact.isNone then
      let obj := markCondition obj readyCondition false "HelmChartNotReady"
        ("HelmChart " ++ hc.nspace ++ "/" ++ hc.name ++ " is not ready")
      PrepOutcome.early obj { requeue := false, requeueAfter := hc.requeueAfterInterval } none
        [Action.getChart]
    else
      match env.values with
      | Except.error e =>
        let obj := markCondition obj readyCondition false "ValuesError" ""
        PrepOutcome.early obj zeroResult (some { err := e, terminal := false })
          [Action.getChart, Action.composeValues]
      | Except.ok vals =>
        match env.loadChart with
        | Except.error e =>
          let obj := markCondition obj readyCondition false artifactFailedReason ""
          PrepOutcome.early obj zeroResult (some { err := e, terminal := false })
            [Action.getChart, Action.composeValues, Action.loadChart]
        | Except.ok lc =>
          match env.getter with
          | Except.error e =>
            let obj := markCondition obj readyCondition false "RESTClientError" ""
            PrepOutcome.early obj zeroResult (some { err := e, terminal := false })
              [Action.getChart, Action.composeValues, Action.loadChart]
          | Except.ok _ => prepTarget env obj lc vals

/-- `reconcileRelease` up to the config factory: mark the object as
reconciling, gate on dependencies (requeueing on the fixed dependency
interval with a nil error when they are not ready), then continue. -/
def reconcileReleasePrep (env : Env) (obj0 : HelmRelease) : PrepOutcome :=
  let obj := markReconcilingObj obj0
  if obj.spec.dependsOn.length > 0 then
    match checkDependencies env.lookup obj with
    | some e =>
      let obj := markCondition obj readyCondition false dependencyNotReadyReason (depErrText e)
      PrepOutcome.early obj { requeue := false, requeueAfter := env.requeueDependency } none []
    | none => prepAfterDeps env obj
  else
    prepAfterDeps env obj

/-- The whole of `reconcileRelease`: after preparation, build the config
factory and run the atomic release engine; on engine success requeue after
the object's own interval. -/
def reconcileRelease (env : Env) (obj0 : HelmRelease) :
    HelmRelease × CtrlResult × Option RetErr × List Action :=
  match reconcileReleasePrep env obj0 with
  | PrepOutcome.early obj res err tr => (obj, res, err, tr)
  | PrepOutcome.proceed obj _lc _vals tr =>
    match env.configFactory with
    | some e =>
      (markCondition obj readyCondition false "FactoryError" "", zeroResult,
        some { err := e, terminal := false }, tr)
    | none =>
      match env.atomicRelease obj with
      | (obj2, some e) =>
        (obj2, zeroResult, some { err := e, terminal := false }, tr ++ [Action.atomicRelease])
      | (obj2, none) =>
        (obj2, { requeue := false, requeueAfter := obj2.requeueAfterInterval }, none,
          tr ++ [Action.atomicRelease])

/-- The body of `Reconcile` (after the object has been fetched): branch to
deletion handling, add the finalizer, return early when suspended,
reconcile the HelmChart template, then reconcile the release. -/
def reconcileMain (env : Env) (obj : HelmRelease) :
    HelmRelease × CtrlResult × Option RetErr × List Action :=
  if obj.deletionTimestamp.isSome then
    env.deleteOutcome obj
  else if !obj.finalizers.contains helmReleaseFinalizer then
    ({ obj with finalizers := obj.finalizers ++ [helmReleaseFinalizer] },
      { requeue := true, requeueAfter := 0 }, none, [])
  else if obj.spec.suspend then
    (obj, zeroResult, none, [])
  else
    match env.chartTemplate with
    | some e => (obj, zeroResult, some { err := e, terminal := false }, [])
    | none => reconcileRelease env obj

/-- The deferred status-patch error handling: a patch failure is aggregated
with an existing reconciliation error, or returned on its own. -/
def finalizePatch (retErr : Option RetErr) (patchErr : Option GoError) : Option RetErr :=
  match patchErr with
  | none => retErr
  | some pe =>
    match retErr with
    | none => some { err := pe, terminal := false }
    | some re => some { err := GoError.aggregate re.err pe, terminal := re.terminal }

/-- `Reconcile`: the reconciliation body followed by the deferred status
patch. -/
def Reconcile (env : Env) (obj : HelmRelease) :
    HelmRelease × CtrlResult × Option RetErr × List Action :=
  match reconcileMain env obj with
  | (obj2, res, err, tr) => (obj2, res, finalizePatch err env.patchErr, tr)

/-! ## The bounded append-with-eviction store -/

/-- The last `n` entries of a list. -/
def lastN (n : Nat) (l : List α) : List α := l.drop (l.length - n)

/-- Modelled from the spec: one insertion into the bounded
append-with-eviction store (spec 4.6 HistoryStore, realised by the
repository's ring-buffered log store whose implementation is not among
the sources; only its tests are).  The entry is appended and, once the
capacity `n` is exceeded, the oldest entries are evicted. -/
def evictInsert (n : Nat) (store : List α) (x : α) : List α :=
  let grown := store ++ [x]
  if n < grown.length then grown.drop (grown.length - n) else grown

/-- Insert a whole sequence into an empty capacity-`n` store. -/
def insertAll (n : Nat) (xs : List α) : List α := xs.foldl (evictInsert n) []

/-! ## Chart-change request mapping -/

/-- `Artifact.HasRevision`: the artifact's revision equals the given one. -/
def artifactHasRevision (a : Artifact) (rev : String) : Bool := decide (a.revision = rev)

/-- `requestsForHelmChartChange`: with no artifact there are no requests;
otherwise enqueue a request for every indexed release whose last attempted
revision is not the artifact's revision. -/
def requestsForHelmChartChange (hc : HelmChartObj) (indexed : List HelmRelease) :
    List NamespacedName :=
  match hc.artifact with
  | none => []
  | some a =>
    (indexed.filter (fun i => !artifactHasRevision a i.status.lastAttemptedRevision)).map
      (fun i => { nspace := i.nspace, name := i.name })

/-! ## Helper lemmas about conditions -/

theorem any_filter_ctype (l : List Condition) (u : String) (p : Condition → Bool)
    (hp : ∀ x, p x = true → x.ctype ≠ u) :
    (l.filter (fun x => decide (x.ctype ≠ u))).any p = l.any p := by
  cases h1 : (l.filter (fun x => decide (x.ctype ≠ u))).any p with
  | true =>
    rcases List.any_eq_true.mp h1 with ⟨x, hxf, hpx⟩
    exact (List.any_eq_true.mpr ⟨x, (List.mem_filter.mp hxf).1, hpx⟩).symm
  | false =>
    cases h2 : l.any p with
    | false => rfl
    | true =>
      exfalso
      rcases List.any_eq_true.mp h2 with ⟨x, hxl, hpx⟩
      have hmem : x ∈ l.filter (fun x => decide (x.ctype ≠ u)) :=
        List.mem_filter.mpr ⟨hxl, by simp [hp x hpx]⟩
      have := List.any_eq_true.mpr ⟨x, hmem, hpx⟩
      rw [h1] at this
      cases this

theorem isTrueCond_set_self (l : List Condition) (c : Condition) (h : c.status = true) :
    isTrueCond (setCondition l c) c.ctype = true := by
  simp [isTrueCond, setCondition, h]

theorem isFalseCond_set_self (l : List Condition) (c : Condition) (h : c.status = false) :
    isFalseCond (setCondition l c) c.ctype = true := by
  simp [isFalseCond, setCondition, h]

theorem isTrueCond_set_ne (l : List Condition) (c : Condition) (t : String)
    (h : c.ctype ≠ t) : isTrueCond (setCondition l c) t = isTrueCond l t := by
  have hc : (decide (c.ctype = t) && c.status) = false := by
    simp [h]
  simp only [isTrueCond, setCondition, List.any_cons, hc, Bool.false_or]
  exact any_filter_ctype l c.ctype _ (by
    intro x hx
    have : x.ctype = t := by
      cases hxt : decide (x.ctype = t) with
      | true => exact of_decide_eq_true hxt
      | false => simp [hxt] at hx
    rw [this]
    exact fun he => h he.symm)

theorem isFalseCond_set_ne (l : List Condition) (c : Condition) (t : String)
    (h : c.ctype ≠ t) : isFalseCond (setCondition l c) t = isFalseCond l t := by
  have hc : (decide (c.ctype = t) && !c.status) = false := by
    simp [h]
  simp only [isFalseCond, setCondition, List.any_cons, hc, Bool.false_or]
  exact any_filter_ctype l c.ctype _ (by
    intro x hx
    have : x.ctype = t := by
      cases hxt : decide (x.ctype = t) with
      | true => exact of_decide_eq_true hxt
      | false => simp [hxt] at hx
    rw [this]
    exact fun he => h he.symm)

theorem isTrueCond_set_mk (l : List Condition) (ct w msg : String) :
    isTrueCond (setCondition l ⟨ct, true, w, msg⟩) ct = true :=
  isTrueCond_set_self l ⟨ct, true, w, msg⟩ rfl

theorem isFalseCond_set_mk (l : List Condition) (ct w msg : String) :
    isFalseCond (setCondition l ⟨ct, false, w, msg⟩) ct = true :=
  isFalseCond_set_self l ⟨ct, false, w, msg⟩ rfl

theorem isTrueCond_set_mk_ne (l : List Condition) (ct : String) (st : Bool) (w msg t : String)
    (h : ct ≠ t) : isTrueCond (setCondition l ⟨ct, st, w, msg⟩) t = isTrueCond l t :=
  isTrueCond_set_ne l ⟨ct, st, w, msg⟩ t h

theorem isFalseCond_set_mk_ne (l : List Condition) (ct : String) (st : Bool) (w msg t : String)
    (h : ct ≠ t) : isFalseCond (setCondition l ⟨ct, st, w, msg⟩) t = isFalseCond l t :=
  isFalseCond_set_ne l ⟨ct, st, w, msg⟩ t h

theorem isTrueCond_del_ne (l : List Condition) (u t : String) (h : t ≠ u) :
    isTrueCond (delCondition l u) t = isTrueCond l t := by
  simp only [isTrueCond, delCondition]
  exact any_filter_ctype l u _ (by
    intro x hx
    have : x.ctype = t := by
      cases hxt : decide (x.ctype = t) with
      | true => exact of_decide_eq_true hxt
      | false => simp [hxt] at hx
    rw [this]
    exact h)

theorem isFalseCond_del_ne (l : List Condition) (u t : String) (h : t ≠ u) :
    isFalseCond (delCondition l u) t = isFalseCond l t := by
  simp only [isFalseCond, delCondition]
  exact any_filter_ctype l u _ (by
    intro x hx
    have : x.ctype = t := by
      cases hxt : decide (x.ctype = t) with
      | true => exact of_decide_eq_true hxt
      | false => simp [hxt] at hx
    rw [this]
    exact h)

theorem hasCondition_del_self (l : List Condition) (t : String) :
    hasCondition (delCondition l t) t = false := by
  induction l with
  | nil => rfl
  | cons x rest ih =>
    by_cases hx : x.ctype = t
    · simp [hasCondition, delCondition, List.filter, hx, ih]
    · simp [hasCondition, delCondition, List.filter, hx, ih]

/-! ## Characterisation of the dependency gate -/

/-- The loop-body test of `checkDependencies` is false exactly when the
dependency predicate of the spec holds for the fetched state. -/
theorem depBad_false_iff (s : DepState) :
    ((s.generation != s.observedGeneration || !isTrueCond s.conditions readyCondition) = false) ↔
      (decide (s.generation = s.observedGeneration) &&
        isTrueCond s.conditions readyCondition) = true := by
  constructor
  · intro h
    rcases Bool.or_eq_false_iff.mp h with ⟨hg, hr⟩
    have hg' : s.generation = s.observedGeneration := by
      by_contra hne
      rw [bne_iff_ne.mpr hne] at hg
      cases hg
    have hr' : isTrueCond s.conditions readyCondition = true := by
      cases hc : isTrueCond s.conditions readyCondition
      · rw [hc] at hr; cases hr
      · rfl
    simp [hg', hr']
  · intro h
    rw [Bool.and_eq_true] at h
    have hg : s.generation = s.observedGeneration := of_decide_eq_true h.1
    simp [hg, h.2]

theorem checkDependenciesList_none_iff (lookup : NamespacedName → Option DepState)
    (ns : String) (l : List DependencyRef) :
    checkDependenciesList lookup ns l = none ↔
      ∀ d ∈ l, depGoodB lookup (resolveDepRef ns d) = true := by
  induction l with
  | nil => simp [checkDependenciesList]
  | cons d rest ih =>
    cases hl : lookup (resolveDepRef ns d) with
    | none =>
      simp only [checkDependenciesList, hl]
      simp only [List.mem_cons]
      constructor
      · intro h; cases h
      · intro h
        have := h d (Or.inl rfl)
        rw [depGoodB, hl] at this
        cases this
    | some s =>
      cases hbad : (s.generation != s.observedGeneration || !isTrueCond s.conditions readyCondition) with
      | true =>
        simp only [checkDependenciesList, hl]
        rw [if_pos hbad]
        constructor
        · intro h; cases h
        · intro h
          have := h d (List.mem_cons_self d rest)
          rw [depGoodB, hl] at this
          rw [(depBad_false_iff s).mpr this] at hbad
          cases hbad
      | false =>
        simp only [checkDependenciesList, hl]
        rw [if_neg (by rw [hbad]; exact Bool.false_ne_true)]
        rw [ih]
        constructor
        · intro h d2 hd2
          rcases List.mem_cons.mp hd2 with h2 | h2
          · subst h2
            rw [depGoodB, hl]
            exact (depBad_false_iff s).mp hbad
          · exact h d2 h2
        · intro h d2 hd2
          exact h d2 (List.mem_cons_of_mem d hd2)

theorem checkDependenciesList_some (lookup : NamespacedName → Option DepState)
    (ns : String) (l : List DependencyRef) (e : DepError)
    (h : checkDependenciesList lookup ns l = some e) :
    ∃ pre d post, l = pre ++ d :: post ∧
      (∀ d2 ∈ pre, depGoodB lookup (resolveDepRef ns d2) = true) ∧
      depGoodB lookup (resolveDepRef ns d) = false ∧
      e.refOf = resolveDepRef ns d := by
  induction l with
  | nil => cases h
  | cons d rest ih =>
    cases hl : lookup (resolveDepRef ns d) with
    | none =>
      simp only [checkDependenciesList, hl] at h
      refine ⟨[], d, rest, rfl, ?_, ?_, ?_⟩
      · intro d2 hd2; cases hd2
      · rw [depGoodB, hl]
      · cases h; rfl
    | some s =>
      cases hbad : (s.generation != s.observedGeneration || !isTrueCond s.conditions readyCondition) with
      | true =>
        simp only [checkDependenciesList, hl] at h
        rw [if_pos hbad] at h
        refine ⟨[], d, rest, rfl, ?_, ?_, ?_⟩
        · intro d2 hd2; cases hd2
        · rw [depGoodB, hl]
          cases hg : (decide (s.generation = s.observedGeneration) &&
              isTrueCond s.conditions readyCondition) with
          | false => exact hg
          | true =>
            rw [(depBad_false_iff s).mpr hg] at hbad
            cases hbad
        · cases h; rfl
      | false =>
        simp only [checkDependenciesList, hl] at h
        rw [if_neg (by rw [hbad]; exact Bool.false_ne_true)] at h
        rcases ih h with ⟨pre, d0, post, hsplit, hpre, hd0, href⟩
        refine ⟨d :: pre, d0, post, by rw [hsplit]; rfl, ?_, hd0, href⟩
        intro d2 hd2
        rcases List.mem_cons.mp hd2 with h2 | h2
        · subst h2
          rw [depGoodB, hl]
          exact (depBad_false_iff s).mp hbad
        · exact hpre d2 h2

/-! ## Transfer lemmas: condition marking leaves the other fields alone -/

theorem checkDependencies_mark (lookup : NamespacedName → Option DepState)
    (obj : HelmRelease) (t : String) (st : Bool) (w m : String) :
    checkDependencies lookup (markCondition obj t st w m) = checkDependencies lookup obj := rfl

theorem releaseTargetChanged_markRec (obj : HelmRelease) (n : String) :
    releaseTargetChanged (markReconcilingObj obj) n = releaseTargetChanged obj n := rfl

theorem mustResetFailures_setStorage (obj : HelmRelease) (s v d : String) :
    mustResetFailures
      { obj with status := { obj.status with storageNamespace := s } } v d
      = mustResetFailures obj v d := rfl

theorem mustResetFailures_markRec (obj : HelmRelease) (v d : String) :
    mustResetFailures (markReconcilingObj obj) v d = mustResetFailures obj v d := rfl

/-! ## Inversion of the preparation phase -/

theorem prep_eq_afterDeps (env : Env) (obj : HelmRelease)
    (hdeps : checkDependencies env.lookup obj = none) :
    reconcileReleasePrep env obj = prepAfterDeps env (markReconcilingObj obj) := by
  simp only [reconcileReleasePrep]
  split
  · rw [show checkDependencies env.lookup (markReconcilingObj obj) = none from hdeps]
  · rfl

theorem afterDeps_proceed_inv (env : Env) (objm obj2 : HelmRelease) (lc : LoadedChart)
    (vals : Values) (tr : List Action)
    (h : prepAfterDeps env objm = PrepOutcome.proceed obj2 lc vals tr) :
    env.values = Except.ok vals ∧ env.loadChart = Except.ok lc ∧
    releaseTargetChanged objm lc.name = false ∧
    obj2 = applyPrepUpdates env objm lc vals ∧ tr = stdTrace := by
  unfold prepAfterDeps at h
  cases hcf : env.chartFetch with
  | accessDenied m => simp only [hcf] at h; exact PrepOutcome.noConfusion h
  | fetchErr m => simp only [hcf] at h; exact PrepOutcome.noConfusion h
  | ok hc =>
    simp only [hcf] at h
    by_cases hrdy : (hc.generation != hc.observedGeneration || !hc.ready || hc.artifact.isNone) = true
    · rw [if_pos hrdy] at h; exact PrepOutcome.noConfusion h
    · rw [if_neg hrdy] at h
      cases hv : env.values with
      | error e => simp only [hv] at h; exact PrepOutcome.noConfusion h
      | ok vals0 =>
        simp only [hv] at h
        cases hlc : env.loadChart with
        | error e => simp only [hlc] at h; exact PrepOutcome.noConfusion h
        | ok lc0 =>
          simp only [hlc] at h
          cases hg : env.getter with
          | error e => simp only [hg] at h; exact PrepOutcome.noConfusion h
          | ok u =>
            simp only [hg] at h
            unfold prepTarget at h
            by_cases htc : releaseTargetChanged objm lc0.name = true
            · rw [if_pos htc] at h
              cases hu : env.uninstallResult with
              | some e =>
                simp only [hu] at h
                by_cases hne : e = GoError.errNoCurrent
                · rw [if_pos hne] at h; exact PrepOutcome.noConfusion h
                · rw [if_neg hne] at h; exact PrepOutcome.noConfusion h
              | none => simp only [hu] at h; exact PrepOutcome.noConfusion h
            · rw [if_neg htc] at h
              injection h with h1 h2 h3 h4
              subst h2; subst h3; subst h4
              exact ⟨rfl, rfl, Bool.eq_false_iff.mpr htc, h1.symm, rfl⟩

theorem prep_proceed_drop_gate (env : Env) (obj obj2 : HelmRelease) (lc : LoadedChart)
    (vals : Values) (tr : List Action)
    (h : reconcileReleasePrep env obj = PrepOutcome.proceed obj2 lc vals tr) :
    prepAfterDeps env (markReconcilingObj obj) = PrepOutcome.proceed obj2 lc vals tr := by
  simp only [reconcileReleasePrep] at h
  split at h
  · split at h
    · exact PrepOutcome.noConfusion h
    · exact h
  · exact h

/-- Full characterisation of a preparation that reaches the engine: the
values and chart are the composed/loaded ones, the target did not change,
the object carries exactly the prepare updates, and no deployment action
was taken. -/
theorem prep_proceed_main (env : Env) (obj obj2 : HelmRelease) (lc : LoadedChart)
    (vals : Values) (tr : List Action)
    (h : reconcileReleasePrep env obj = PrepOutcome.proceed obj2 lc vals tr) :
    env.values = Except.ok vals ∧ env.loadChart = Except.ok lc ∧
    releaseTargetChanged obj lc.name = false ∧
    obj2 = applyPrepUpdates env (markReconcilingObj obj) lc vals ∧ tr = stdTrace := by
  have h2 := afterDeps_proceed_inv env (markReconcilingObj obj) obj2 lc vals tr
    (prep_proceed_drop_gate env obj obj2 lc vals tr h)
  rw [releaseTargetChanged_markRec] at h2
  exact h2

/-! ## Projections of the prepare updates -/

theorem applyPrepUpdates_counters (env : Env) (obj : HelmRelease) (lc : LoadedChart)
    (vals : Values) :
    (applyPrepUpdates env obj lc vals).status.installFailures
        = (if mustResetFailures obj lc.version (env.digestOf vals) then 0
           else obj.status.installFailures) ∧
    (applyPrepUpdates env obj lc vals).status.upgradeFailures
        = (if mustResetFailures obj lc.version (env.digestOf vals) then 0
           else obj.status.upgradeFailures) ∧
    (applyPrepUpdates env obj lc vals).status.failures
        = (if mustResetFailures obj lc.version (env.digestOf vals) then 0
           else obj.status.failures) := by
  simp only [applyPrepUpdates, mustResetFailures_setStorage]
  split <;> simp_all

theorem applyPrepUpdates_lastAttempted (env : Env) (obj : HelmRelease) (lc : LoadedChart)
    (vals : Values) :
    (applyPrepUpdates env obj lc vals).status.lastAttemptedRevision = lc.version ∧
    (applyPrepUpdates env obj lc vals).status.lastAttemptedConfigDigest = env.digestOf vals ∧
    (applyPrepUpdates env obj lc vals).status.lastAttemptedGeneration = obj.generation ∧
    (applyPrepUpdates env obj lc vals).status.lastAttemptedValuesChecksum = "" := by
  simp only [applyPrepUpdates, mustResetFailures_setStorage]
  split <;> simp_all

/-! ## The append-with-eviction store keeps the most recent entries -/

theorem evictInsert_eq_lastN (n : Nat) (s : List α) (x : α) :
    evictInsert n s x = lastN n (s ++ [x]) := by
  unfold evictInsert lastN
  by_cases h : n < (s ++ [x]).length
  · rw [if_pos h]
  · rw [if_neg h]
    have h0 : (s ++ [x]).length - n = 0 := by omega
    rw [h0, List.drop_zero]

theorem lastN_append_single (n : Nat) (l : List α) (x : α) :
    lastN n (lastN n l ++ [x]) = lastN n (l ++ [x]) := by
  unfold lastN
  have h1 : l.drop (l.length - n) ++ [x] = (l ++ [x]).drop (l.length - n) := by
    rw [List.drop_append_eq_append_drop]
    have h0 : l.length - n - l.length = 0 := by omega
    rw [h0, List.drop_zero]
  rw [h1, List.drop_drop]
  congr 1
  simp only [List.length_drop, List.length_append, List.length_cons, List.length_nil]
  omega

theorem foldl_evictInsert (n : Nat) (xs l : List α) :
    xs.foldl (evictInsert n) (lastN n l) = lastN n (l ++ xs) := by
  induction xs generalizing l with
  | nil => simp
  | cons x rest ih =>
    rw [List.foldl_cons, evictInsert_eq_lastN, lastN_append_single, ih (l ++ [x])]
    simp

theorem insertAll_eq_lastN (n : Nat) (xs : List α) : insertAll n xs = lastN n xs := by
  have h := foldl_evictInsert n xs []
  simpa [insertAll, lastN] using h

/-! ## Concrete fixtures used by the witnesses -/

def objW : HelmRelease :=
  { nspace := "ns", name := "app", generation := 1, deletionTimestamp := none,
    finalizers := [helmReleaseFinalizer],
    spec := { suspend := false, dependsOn := [] },
    status :=
      { observedGeneration := 0, history := [], storageNamespace := "",
        installFailures := 3, upgradeFailures := 4, failures := 5,
        lastAttemptedGeneration := 0, lastAttemptedRevision := "0.9.0",
        lastAttemptedConfigDigest := "d0", lastAttemptedValuesChecksum := "x",
        conditions := [] },
    releaseNamespace := "ns", releaseName := "app",
    storageNamespaceDesired := "ns", requeueAfterInterval := 60 }

def hcW : HelmChartObj :=
  { nspace := "ns", name := "app", generation := 1, observedGeneration := 1, ready := true,
    artifact := some { url := "u", digest := "d", revision := "1.0.0" },
    requeueAfterInterval := 10 }

def lcW : LoadedChart := { name := "app", version := "1.0.0" }

def envW : Env :=
  { requeueDependency := 30,
    lookup := fun _ => none,
    chartFetch := ChartFetch.ok hcW,
    values := Except.ok "v",
    loadChart := Except.ok lcW,
    getter := Except.ok (),
    uninstallResult := none,
    configFactory := none,
    atomicRelease := fun o => (o, none),
    digestOf := fun v => "digest-" ++ v,
    deleteOutcome := fun o => (o, zeroResult, none, []),
    chartTemplate := none,
    patchErr := none }

/-- The prepared object produced by `reconcileReleasePrep envW objW`. -/
def objW2 : HelmRelease :=
  { objW with status :=
    { observedGeneration := 0, history := [], storageNamespace := "ns",
      installFailures := 0, upgradeFailures := 0, failures := 0,
      lastAttemptedGeneration := 1, lastAttemptedRevision := "1.0.0",
      lastAttemptedConfigDigest := "digest-v", lastAttemptedValuesChecksum := "",
      conditions := [⟨reconcilingCondition, true, progressingReason, ""⟩] } }

def objW4 : HelmRelease :=
  { objW with spec := { suspend := false, dependsOn := [⟨"", "backend"⟩] } }

def lookup3 : NamespacedName → Option DepState := fun r =>
  if r = ⟨"ns", "backend"⟩ then
    some { generation := 2, observedGeneration := 1, conditions := [] }
  else none

def lookup4 : NamespacedName → Option DepState := fun r =>
  if r = ⟨"ns", "backend"⟩ then
    some { generation := 2, observedGeneration := 2,
           conditions := [⟨readyCondition, true, "Succeeded", ""⟩] }
  else none

def env3 : Env := { envW with lookup := lookup3 }

def snapC2 : Snapshot :=
  { name := "app", nspace := "other", chartName := "app", version := "1.0.0",
    configDigest := "d0" }

def objC2 : HelmRelease :=
  { objW with status := { objW.status with history := [snapC2], storageNamespace := "helm-ns" } }

def envC2 : Env := { envW with uninstallResult := some (GoError.msg "uninstall failed") }

def envC6 : Env := { envW with chartFetch := ChartFetch.accessDenied "denied" }

def envC7 : Env :=
  { envW with chartTemplate := some (GoError.msg "tpl"), patchErr := some (GoError.msg "patch") }

def objW5 : HelmRelease := { objW with spec := { suspend := true, dependsOn := [] } }

def artW10 : Artifact := { url := "u", digest := "d", revision := "2.0.0" }

def hcW10 : HelmChartObj :=
  { nspace := "ns", name := "chart", generation := 1, observedGeneration := 1, ready := true,
    artifact := some artW10, requeueAfterInterval := 5 }

def relA : HelmRelease :=
  { objW with
    name := "a",
    status := { objW.status with lastAttemptedRevision := "1.0.0" } }

def relB : HelmRelease :=
  { objW with
    name := "b",
    status := { objW.status with lastAttemptedRevision := "2.0.0" } }

/-! ## Claim theorems -/

/-- Claim C1: in a reconciliation of a non-deleted, non-suspended release
that reaches the failure-counter reset check (the preparation phase hands
the object on to the engine), the three failure counters are zeroed
exactly when the loaded chart version or the canonical values digest
differs from the `(lastAttemptedRevision, lastAttemptedConfigDigest)`
pair recorded in status, regardless of their prior values; when both are
unchanged all three counters keep their prior values. -/
theorem counterResetLaw (env : Env) (obj obj2 : HelmRelease) (lc : LoadedChart)
    (vals : Values) (tr : List Action)
    (h : reconcileReleasePrep env obj = PrepOutcome.proceed obj2 lc vals tr) :
    (mustResetFailures obj lc.version (env.digestOf vals) = true →
      obj2.status.installFailures = 0 ∧ obj2.status.upgradeFailures = 0 ∧
      obj2.status.failures = 0) ∧
    (mustResetFailures obj lc.version (env.digestOf vals) = false →
      obj2.status.installFailures = obj.status.installFailures ∧
      obj2.status.upgradeFailures = obj.status.upgradeFailures ∧
      obj2.status.failures = obj.status.failures) := by
  obtain ⟨hv, hlc, htc, hobj, htr⟩ := prep_proceed_main env obj obj2 lc vals tr h
  subst hobj
  have hc := applyPrepUpdates_counters env (markReconcilingObj obj) lc vals
  rw [mustResetFailures_markRec] at hc
  constructor
  · intro hm
    rw [hm] at hc
    simpa using hc
  · intro hm
    rw [hm] at hc
    simpa [markReconcilingObj, markCondition] using hc

/-- Witness for C1: a concrete run of the preparation phase on `objW`
(whose last attempted pair is `("0.9.0", "d0")`) with chart version
`1.0.0`, which resets the counters `3`, `4`, `5` to zero. -/
theorem counterResetLaw_witness :
    objW2.status.installFailures = 0 ∧ objW2.status.upgradeFailures = 0 ∧
    objW2.status.failures = 0 :=
  (counterResetLaw envW objW objW2 lcW "v" stdTrace (by decide)).1 (by decide)

/-- Claim C9: in a reconciliation that passes the dependency gate and the
target-change check, the prepared object handed to the engine carries
`lastAttemptedRevision` equal to the loaded chart version and
`lastAttemptedConfigDigest` equal to the canonical digest of the composed
values (and the last attempted generation), no deployment action has been
taken yet at that point, and the failure counters were decided against
the previous pair before the update. -/
theorem lastAttemptedBeforeDeploy (env : Env) (obj obj2 : HelmRelease) (lc : LoadedChart)
    (vals : Values) (tr : List Action)
    (h : reconcileReleasePrep env obj = PrepOutcome.proceed obj2 lc vals tr) :
    obj2.status.lastAttemptedRevision = lc.version ∧
    obj2.status.lastAttemptedConfigDigest = env.digestOf vals ∧
    obj2.status.lastAttemptedGeneration = obj.generation ∧
    obj2.status.installFailures =
      (if mustResetFailures obj lc.version (env.digestOf vals) then 0
       else obj.status.installFailures) ∧
    obj2.status.upgradeFailures =
      (if mustResetFailures obj lc.version (env.digestOf vals) then 0
       else obj.status.upgradeFailures) ∧
    obj2.status.failures =
      (if mustResetFailures obj lc.version (env.digestOf vals) then 0
       else obj.status.failures) ∧
    tr = [Action.getChart, Action.composeValues, Action.loadChart] := by
  obtain ⟨hv, hlc, htc, hobj, htr⟩ := prep_proceed_main env obj obj2 lc vals tr h
  subst hobj
  have hla := applyPrepUpdates_lastAttempted env (markReconcilingObj obj) lc vals
  have hc := applyPrepUpdates_counters env (markReconcilingObj obj) lc vals
  rw [mustResetFailures_markRec] at hc
  simp only [markReconcilingObj, markCondition] at hla hc
  refine ⟨hla.1, hla.2.1, ?_, ?_, ?_, ?_, htr⟩
  · simpa using hla.2.2.1
  · simpa using hc.1
  · simpa using hc.2.1
  · simpa using hc.2.2

/-- Witness for C9: the same concrete run as C1; the prepared object
records revision `1.0.0` and digest `digest-v`. -/
theorem lastAttemptedBeforeDeploy_witness :
    objW2.status.lastAttemptedRevision = "1.0.0" ∧
    objW2.status.lastAttemptedConfigDigest = "digest-v" := by
  have h := lastAttemptedBeforeDeploy envW objW objW2 lcW "v" stdTrace (by decide)
  exact ⟨h.1, h.2.1⟩

/-- Claim C3: a release with a failing dependency check takes no chart
resolution and no deployment action (empty action trace), is marked not
ready with the failure cause, and is requeued after the fixed configured
dependency interval with a nil error. -/
theorem dependencyGate_requeues_fixed (env : Env) (obj : HelmRelease) (e : DepError)
    (hdep : checkDependencies env.lookup obj = some e) :
    reconcileReleasePrep env obj =
      PrepOutcome.early
        (markCondition (markReconcilingObj obj) readyCondition false dependencyNotReadyReason
          (depErrText e))
        { requeue := false, requeueAfter := env.requeueDependency } none [] := by
  have hne0 : obj.spec.dependsOn ≠ [] := by
    intro hl
    unfold checkDependencies at hdep
    rw [hl] at hdep
    exact Option.noConfusion hdep
  have hne : (markReconcilingObj obj).spec.dependsOn.length > 0 := by
    show 0 < obj.spec.dependsOn.length
    exact List.length_pos.mpr hne0
  simp only [reconcileReleasePrep]
  rw [if_pos hne]
  rw [show checkDependencies env.lookup (markReconcilingObj obj) = some e from hdep]

/-- Witness for C3: a dependency observed at a stale generation blocks the
reconciliation of `objW4` and requeues it after the fixed 30-unit
dependency interval. -/
theorem dependencyGate_requeues_fixed_witness :
    reconcileReleasePrep env3 objW4 =
      PrepOutcome.early
        (markCondition (markReconcilingObj objW4) readyCondition false dependencyNotReadyReason
          (depErrText (DepError.notReady ⟨"ns", "backend"⟩)))
        { requeue := false, requeueAfter := 30 } none [] :=
  dependencyGate_requeues_fixed env3 objW4 (DepError.notReady ⟨"ns", "backend"⟩) (by decide)

/-- Claim C4: the dependency check passes (returns no error) if and only
if every entry of the dependency list — its namespace defaulting to the
release's own — can be fetched, was observed at its latest generation,
and has a true Ready condition; and a failing check returns an error
naming the first dependency that violates this. -/
theorem dependencyGate_iff (lookup : NamespacedName → Option DepState) (obj : HelmRelease) :
    (checkDependencies lookup obj = none ↔
      ∀ d ∈ obj.spec.dependsOn, depGoodB lookup (resolveDepRef obj.nspace d) = true) ∧
    (∀ e, checkDependencies lookup obj = some e →
      ∃ pre d post, obj.spec.dependsOn = pre ++ d :: post ∧
        (∀ d2 ∈ pre, depGoodB lookup (resolveDepRef obj.nspace d2) = true) ∧
        depGoodB lookup (resolveDepRef obj.nspace d) = false ∧
        e.refOf = resolveDepRef obj.nspace d) := by
  constructor
  · exact checkDependenciesList_none_iff lookup obj.nspace obj.spec.dependsOn
  · intro e he
    exact checkDependenciesList_some lookup obj.nspace obj.spec.dependsOn e he

/-- Witness for C4: a single ready dependency (fetched, observed at its
generation, Ready true) makes the gate pass on `objW4`. -/
theorem dependencyGate_iff_witness : checkDependencies lookup4 objW4 = none :=
  (dependencyGate_iff lookup4 objW4).1.mpr (by decide)

/-- Counterexample to Claim C2 as stated: on a target-identity change the
claim asserts the reconciler clears the recorded history and storage
namespace and requests an immediate re-reconciliation.  With the
uninstall of the old target failing (`envC2`), the code issues the one
uninstall action but returns the error without clearing anything and
without requesting an immediate requeue. -/
theorem targetChange_teardown_cex :
    releaseTargetChanged objC2 lcW.name = true ∧
    (reconcileReleasePrep envC2 objC2).outTrace =
      [Action.getChart, Action.composeValues, Action.loadChart,
        Action.uninstall "helm-ns" (some snapC2)] ∧
    (reconcileReleasePrep envC2 objC2).outErr =
      some { err := GoError.msg "uninstall failed", terminal := false } ∧
    ¬ ((reconcileReleasePrep envC2 objC2).outObj.status.history = [] ∧
       (reconcileReleasePrep envC2 objC2).outObj.status.storageNamespace = "" ∧
       (reconcileReleasePrep envC2 objC2).outRes =
         { requeue := true, requeueAfter := 0 }) := by
  decide

/-- Claim C2 (amended): when the release target identity differs from the
recorded one, the reconciliation issues exactly one uninstall action for
the old target and never reaches the install/upgrade engine in the same
pass; when that uninstall succeeds or reports that there is no current
release, the history and storage namespace are cleared and an immediate
re-reconciliation is requested with no error; when the uninstall fails
with any other error, that error is returned and the history and storage
namespace are left unchanged. -/
theorem targetChange_teardown (env : Env) (obj : HelmRelease) (hc : HelmChartObj)
    (lc : LoadedChart) (vals : Values)
    (h0 : checkDependencies env.lookup obj = none)
    (h1 : env.chartFetch = ChartFetch.ok hc)
    (h2 : (hc.generation != hc.observedGeneration) = false)
    (h3 : hc.ready = true)
    (h4 : hc.artifact.isNone = false)
    (h5 : env.values = Except.ok vals)
    (h6 : env.loadChart = Except.ok lc)
    (h7 : env.getter = Except.ok ())
    (h8 : releaseTargetChanged obj lc.name = true) :
    (reconcileReleasePrep env obj).outTrace =
      [Action.getChart, Action.composeValues, Action.loadChart,
        Action.uninstall obj.status.storageNamespace obj.status.history.head?] ∧
    ((env.uninstallResult = none ∨ env.uninstallResult = some GoError.errNoCurrent) →
      (reconcileReleasePrep env obj).outObj.status.history = [] ∧
      (reconcileReleasePrep env obj).outObj.status.storageNamespace = "" ∧
      (reconcileReleasePrep env obj).outRes = { requeue := true, requeueAfter := 0 } ∧
      (reconcileReleasePrep env obj).outErr = none) ∧
    (∀ e, env.uninstallResult = some e → e ≠ GoError.errNoCurrent →
      (reconcileReleasePrep env obj).outObj.status.history = obj.status.history ∧
      (reconcileReleasePrep env obj).outObj.status.storageNamespace =
        obj.status.storageNamespace ∧
      (reconcileReleasePrep env obj).outRes = zeroResult ∧
      (reconcileReleasePrep env obj).outErr =
        some { err := e, terminal := false }) := by
  have htc : releaseTargetChanged (markReconcilingObj obj) lc.name = true := by
    rw [releaseTargetChanged_markRec]
    exact h8
  have hpt : reconcileReleasePrep env obj = prepTarget env (markReconcilingObj obj) lc vals := by
    rw [prep_eq_afterDeps env obj h0]
    unfold prepAfterDeps
    simp only [h1, h2, h3, h4, h5, h6, h7, Bool.not_true, Bool.or_false, Bool.false_or]
    rw [if_neg Bool.false_ne_true]
  refine ⟨?_, ?_, ?_⟩
  · rw [hpt]
    simp only [prepTarget]
    rw [if_pos htc]
    split
    · split
      · rfl
      · rfl
    · rfl
  · intro hu
    rw [hpt]
    simp only [prepTarget]
    rw [if_pos htc]
    split
    · rename_i e heq
      rcases hu with hu | hu
      · rw [hu] at heq
        exact Option.noConfusion heq
      · rw [hu] at heq
        injection heq with he
        rw [if_pos he.symm]
        exact ⟨rfl, rfl, rfl, rfl⟩
    · exact ⟨rfl, rfl, rfl, rfl⟩
  · intro e hu hne
    rw [hpt]
    simp only [prepTarget]
    rw [if_pos htc]
    split
    · rename_i e2 heq
      rw [hu] at heq
      injection heq with he
      subst he
      rw [if_neg hne]
      exact ⟨rfl, rfl, rfl, rfl⟩
    · rename_i heq
      rw [hu] at heq
      exact Option.noConfusion heq

/-- Witness for the amended C2: with the uninstall succeeding (`envW`) on
the target-changed `objC2`, the history and storage namespace are cleared
and an immediate requeue with no error is requested. -/
theorem targetChange_teardown_witness :
    (reconcileReleasePrep envW objC2).outObj.status.history = [] ∧
    (reconcileReleasePrep envW objC2).outObj.status.storageNamespace = "" ∧
    (reconcileReleasePrep envW objC2).outRes = { requeue := true, requeueAfter := 0 } ∧
    (reconcileReleasePrep envW objC2).outErr = none :=
  (targetChange_teardown envW objC2 hcW lcW "v" rfl rfl (by decide) rfl (by decide) rfl rfl
    rfl (by decide)).2.1 (Or.inl rfl)

/-- Claim C5: a suspended release that carries the finalizer and is not
under deletion is returned from `Reconcile` unchanged, with a zero result
(no requeue), no error, and no action taken: every status field keeps its
value. -/
theorem suspended_reconcile_noop (env : Env) (obj : HelmRelease)
    (hdel : obj.deletionTimestamp = none)
    (hfin : obj.finalizers.contains helmReleaseFinalizer = true)
    (hsus : obj.spec.suspend = true)
    (hpatch : env.patchErr = none) :
    Reconcile env obj = (obj, zeroResult, none, []) := by
  have h1 : obj.deletionTimestamp.isSome = false := by rw [hdel]; rfl
  have h2 : (!obj.finalizers.contains helmReleaseFinalizer) = false := by rw [hfin]; rfl
  unfold Reconcile reconcileMain
  rw [h1, if_neg Bool.false_ne_true, h2, if_neg Bool.false_ne_true]
  simp [hsus, finalizePatch, hpatch]

/-- Witness for C5: reconciling the suspended `objW5` returns it untouched
with a zero result. -/
theorem suspended_reconcile_noop_witness :
    Reconcile envW objW5 = (objW5, zeroResult, none, []) :=
  suspended_reconcile_noop envW objW5 rfl (by decide) rfl rfl

/-- Claim C6: when fetching the chart object fails with a cross-boundary
access-denied error, the release is marked Stalled, Ready is set false,
the Reconciling condition is removed, and `reconcileRelease` returns a
zero result together with a terminal error. -/
theorem accessDenied_stalls (env : Env) (obj : HelmRelease) (m : String)
    (hdeps : checkDependencies env.lookup obj = none)
    (hcf : env.chartFetch = ChartFetch.accessDenied m) :
    (reconcileRelease env obj).2.1 = zeroResult ∧
    (reconcileRelease env obj).2.2.1 = some { err := GoError.msg m, terminal := true } ∧
    isTrueCond (reconcileRelease env obj).1.status.conditions stalledCondition = true ∧
    isFalseCond (reconcileRelease env obj).1.status.conditions readyCondition = true ∧
    hasCondition (reconcileRelease env obj).1.status.conditions reconcilingCondition
      = false := by
  have hpre : reconcileReleasePrep env obj =
      PrepOutcome.early
        (unmarkCondition
          (markCondition
            (markCondition (markReconcilingObj obj) stalledCondition true accessDeniedReason m)
            readyCondition false accessDeniedReason m)
          reconcilingCondition)
        zeroResult (some { err := GoError.msg m, terminal := true }) [Action.getChart] := by
    rw [prep_eq_afterDeps env obj hdeps]
    unfold prepAfterDeps
    simp only [hcf]
  have hout : reconcileRelease env obj =
      (unmarkCondition
        (markCondition
          (markCondition (markReconcilingObj obj) stalledCondition true accessDeniedReason m)
          readyCondition false accessDeniedReason m)
        reconcilingCondition,
       zeroResult, some { err := GoError.msg m, terminal := true }, [Action.getChart]) := by
    unfold reconcileRelease
    rw [hpre]
  refine ⟨by rw [hout], by rw [hout], ?_, ?_, ?_⟩
  · rw [hout]
    simp only [unmarkCondition, markCondition, markReconcilingObj]
    rw [isTrueCond_del_ne _ reconcilingCondition stalledCondition (by decide),
      isTrueCond_set_mk_ne _ readyCondition false accessDeniedReason m stalledCondition
        (by decide),
      isTrueCond_set_mk]
  · rw [hout]
    simp only [unmarkCondition, markCondition, markReconcilingObj]
    rw [isFalseCond_del_ne _ reconcilingCondition readyCondition (by decide),
      isFalseCond_set_mk]
  · rw [hout]
    simp only [unmarkCondition, markCondition, markReconcilingObj]
    rw [hasCondition_del_self]

/-- Witness for C6: an access-denied chart fetch on `objW` stalls the
release terminally. -/
theorem accessDenied_stalls_witness :
    (reconcileRelease envC6 objW).2.1 = zeroResult ∧
    (reconcileRelease envC6 objW).2.2.1 =
      some { err := GoError.msg "denied", terminal := true } ∧
    isTrueCond (reconcileRelease envC6 objW).1.status.conditions stalledCondition = true ∧
    isFalseCond (reconcileRelease envC6 objW).1.status.conditions readyCondition = true ∧
    hasCondition (reconcileRelease envC6 objW).1.status.conditions reconcilingCondition
      = false :=
  accessDenied_stalls envC6 objW "denied" rfl rfl

/-- Claim C7: when the deferred status patch fails, its error is not lost:
with no reconciliation error the patch error itself is returned, and with
a reconciliation error the two are combined into an aggregate containing
both. -/
theorem patchFailureAggregated (env : Env) (obj : HelmRelease) (pe : GoError)
    (hp : env.patchErr = some pe) :
    ((reconcileMain env obj).2.2.1 = none →
      (Reconcile env obj).2.2.1 = some { err := pe, terminal := false }) ∧
    (∀ re, (reconcileMain env obj).2.2.1 = some re →
      (Reconcile env obj).2.2.1 =
        some { err := GoError.aggregate re.err pe, terminal := re.terminal } ∧
      re.err ∈ (GoError.aggregate re.err pe).members ∧
      pe ∈ (GoError.aggregate re.err pe).members) := by
  rcases hmain : reconcileMain env obj with ⟨o2, res, err, tr⟩
  constructor
  · intro hnone
    replace hnone : err = none := hnone
    subst hnone
    unfold Reconcile
    rw [hmain]
    simp [finalizePatch, hp]
  · intro re hsome
    replace hsome : err = some re := hsome
    subst hsome
    unfold Reconcile
    rw [hmain]
    refine ⟨?_, ?_, ?_⟩
    · simp [finalizePatch, hp]
    · simp [GoError.members]
    · simp [GoError.members]

/-- Witness for C7: a failing chart-template reconciliation combined with
a failing status patch yields the aggregate of both errors. -/
theorem patchFailureAggregated_witness :
    (Reconcile envC7 objW).2.2.1 =
      some { err := GoError.aggregate (GoError.msg "tpl") (GoError.msg "patch"),
             terminal := false } :=
  ((patchFailureAggregated envC7 objW (GoError.msg "patch") rfl).2
    { err := GoError.msg "tpl", terminal := false } (by decide)).1

/-- Claim C8: inserting `M` entries into the empty capacity-`N`
append-with-eviction store leaves exactly the `N` most recently inserted
entries when `M > N` (the oldest evicted first), and all `M` entries when
`M ≤ N`. -/
theorem historyStoreBound {α : Type} (n : Nat) (xs : List α) :
    (n < xs.length →
      insertAll n xs = xs.drop (xs.length - n) ∧ (insertAll n xs).length = n) ∧
    (xs.length ≤ n → insertAll n xs = xs) := by
  have hmain := insertAll_eq_lastN n xs
  constructor
  · intro h
    refine ⟨hmain, ?_⟩
    rw [hmain]
    unfold lastN
    rw [List.length_drop]
    omega
  · intro h
    rw [hmain]
    unfold lastN
    have h0 : xs.length - n = 0 := by omega
    rw [h0, List.drop_zero]

/-- Witness for C8: three insertions into a capacity-2 store keep the two
most recent entries; two insertions keep both. -/
theorem historyStoreBound_witness :
    insertAll 2 [1, 2, 3] = [2, 3] ∧ (insertAll 2 [1, 2, 3]).length = 2 ∧
    insertAll 2 [(4 : Nat), 5] = [4, 5] := by
  have h1 := (historyStoreBound 2 [1, 2, 3]).1 (by decide)
  have h2 := (historyStoreBound 2 [(4 : Nat), 5]).2 (by decide)
  exact ⟨h1.1.trans (by decide), h1.2, h2⟩

/-- Claim C10: a chart-change notification with no artifact enqueues no
reconcile request, and with an artifact it enqueues requests exactly for
the indexed releases whose `lastAttemptedRevision` does not match the
artifact revision — a release whose last attempted revision equals the
artifact revision is never enqueued by this mapping. -/
theorem chartChangeRequests (hc : HelmChartObj) (rels : List HelmRelease) :
    (hc.artifact = none → requestsForHelmChartChange hc rels = []) ∧
    (∀ a, hc.artifact = some a → ∀ req,
      req ∈ requestsForHelmChartChange hc rels ↔
        ∃ i, i ∈ rels ∧ artifactHasRevision a i.status.lastAttemptedRevision = false ∧
          req = { nspace := i.nspace, name := i.name }) := by
  constructor
  · intro h
    unfold requestsForHelmChartChange
    rw [h]
  · intro a ha req
    unfold requestsForHelmChartChange
    rw [ha]
    simp only [List.mem_map, List.mem_filter]
    constructor
    · rintro ⟨i, ⟨hmem, hflt⟩, heq⟩
      refine ⟨i, hmem, ?_, heq.symm⟩
      cases hrev : artifactHasRevision a i.status.lastAttemptedRevision
      · rfl
      · rw [hrev] at hflt
        cases hflt
    · rintro ⟨i, hmem, hrev, heq⟩
      exact ⟨i, ⟨hmem, by rw [hrev]; rfl⟩, heq.symm⟩

/-- Witness for C10: with an artifact at revision `2.0.0`, the release
whose last attempted revision is `1.0.0` is enqueued (and, by the same
characterisation, the one already at `2.0.0` is not). -/
theorem chartChangeRequests_witness :
    (⟨"ns", "a"⟩ : NamespacedName) ∈ requestsForHelmChartChange hcW10 [relA, relB] :=
  ((chartChangeRequests hcW10 [relA, relB]).2 artW10 rfl ⟨"ns", "a"⟩).mpr
    ⟨relA, by decide, by decide, by decide⟩

end HelmController
